import Mathlib

/-
Verification of src/timer_thread.c (mruby-timer-thread), POSIX branch.

C strings are modelled as lists of byte values (`List Nat`), excluding the
terminating NUL.  Machine integers are modelled as unbounded `Int` with the
narrowing conversion `(int)x` made explicit (`toInt32`) at the places the C
source performs it.  Platform-dependent constants (signal numbers, the
real-time signal range, clock ids, and the `#ifdef`-selected entries of the
signal name table) are instantiated with their glibc/Linux x86-64 values,
the platform selected by the source's non-`__APPLE__` branch.
-/

namespace TimerThread

/-- Linux value of the default alarm signal SIGALRM. -/
def SIGALRM : Int := 14

/-- glibc value of the first real-time signal (SIGRTMIN). -/
def SIGRTMIN : Int := 34

/-- glibc value of the last real-time signal (SIGRTMAX). -/
def SIGRTMAX : Int := 64

/-- Linux value of the wall-clock id CLOCK_REALTIME. -/
def CLOCK_REALTIME : Int := 0

/-- The C narrowing conversion `(int)x`: two's-complement wrap into
the 32-bit signed range. -/
def toInt32 (x : Int) : Int := (x + 2 ^ 31) % 2 ^ 32 - 2 ^ 31

/- ---------------------------------------------------------------------
   Byte-level string helpers modelling the libc calls used by the source
   (`strcmp`, `strncmp`, `memcmp`, `strtol`).
--------------------------------------------------------------------- -/

/-- Whitespace bytes skipped by `strtol` (isspace in the C locale). -/
def isSpaceB (b : Nat) : Bool := decide (b = 32 ∨ (9 ≤ b ∧ b ≤ 13))

/-- Decimal digit byte. -/
def isDigitB (b : Nat) : Bool := decide (48 ≤ b ∧ b ≤ 57)

/-- Octal digit byte. -/
def isOctB (b : Nat) : Bool := decide (48 ≤ b ∧ b ≤ 55)

/-- Hexadecimal digit byte. -/
def isHexB (b : Nat) : Bool :=
  decide ((48 ≤ b ∧ b ≤ 57) ∨ (97 ≤ b ∧ b ≤ 102) ∨ (65 ≤ b ∧ b ≤ 70))

/-- Value of a hexadecimal digit byte. -/
def hexVal (b : Nat) : Nat :=
  if b ≤ 57 then b - 48 else if 97 ≤ b then b - 87 else b - 55

/-- Accumulating decimal parse; stops at the first non-digit byte
(the behaviour of `strtol`'s digit loop). -/
def parseDecAux : List Nat → Nat → Nat
  | [], acc => acc
  | b :: bs, acc => if isDigitB b then parseDecAux bs (acc * 10 + (b - 48)) else acc

/-- Accumulating hexadecimal parse. -/
def parseHexAux : List Nat → Nat → Nat
  | [], acc => acc
  | b :: bs, acc => if isHexB b then parseHexAux bs (acc * 16 + hexVal b) else acc

/-- Accumulating octal parse. -/
def parseOctAux : List Nat → Nat → Nat
  | [], acc => acc
  | b :: bs, acc => if isOctB b then parseOctAux bs (acc * 8 + (b - 48)) else acc

/-- Magnitude part of `strtol(s, NULL, 0)` after sign handling: base is
auto-detected (leading "0x"/"0X" is hex, other leading "0" is octal,
otherwise decimal); no convertible digits yield 0. -/
def cStrtolBody : List Nat → Nat
  | [] => 0
  | b :: bs =>
    if b = 48 then
      match bs with
      | [] => 0
      | c :: cs =>
        if c = 120 ∨ c = 88 then
          (if isHexB (cs.headD 0) then parseHexAux cs 0 else 0)
        else parseOctAux (c :: cs) 0
    else parseDecAux (b :: bs) 0

/-- `strtol(s, NULL, 0)`: skip leading whitespace, optional sign,
auto-detected base, and saturation to the `long` range on overflow.
(The exact-arithmetic model is used; saturation only matters for inputs
of 19 or more digits.) -/
def cStrtol0 (s : List Nat) : Int :=
  let s1 := s.dropWhile isSpaceB
  let v : Int :=
    match s1 with
    | [] => 0
    | b :: bs =>
      if b = 45 then -(cStrtolBody bs : Int)
      else if b = 43 then (cStrtolBody bs : Int)
      else (cStrtolBody (b :: bs) : Int)
  max (-(2 ^ 63)) (min (2 ^ 63 - 1) v)

/-- Fuelled most-significant-first decimal digit rendering. -/
def digitsAux : Nat → Nat → List Nat → List Nat
  | 0, _, acc => acc
  | fuel + 1, n, acc =>
    if n < 10 then (48 + n) :: acc
    else digitsAux fuel (n / 10) ((48 + n % 10) :: acc)

/-- Decimal byte string of a natural number (e.g. 250 to bytes "250"). -/
def natRepr (n : Nat) : List Nat := digitsAux (n + 1) n []

/-- The textual real-time-signal token "RT" followed by the decimal
rendering of the offset i (bytes 82 'R', 84 'T'). -/
def rtToken (i : Nat) : List Nat := 82 :: 84 :: natRepr i

/- ---------------------------------------------------------------------
   The signal name table (siglist, timer_thread.c lines 27-162),
   instantiated with the entries whose #ifdef guard holds on Linux and
   with the Linux x86-64 signal numbers.
--------------------------------------------------------------------- -/

/-- The static name table of the source, in source order. -/
def siglist : List (List Nat × Int) := [
  ([69, 88, 73, 84], 0),              -- "EXIT"
  ([72, 85, 80], 1),                  -- "HUP"
  ([73, 78, 84], 2),                  -- "INT"
  ([81, 85, 73, 84], 3),              -- "QUIT"
  ([73, 76, 76], 4),                  -- "ILL"
  ([84, 82, 65, 80], 5),              -- "TRAP"
  ([65, 66, 82, 84], 6),              -- "ABRT"
  ([73, 79, 84], 6),                  -- "IOT"
  ([70, 80, 69], 8),                  -- "FPE"
  ([75, 73, 76, 76], 9),              -- "KILL"
  ([66, 85, 83], 7),                  -- "BUS"
  ([83, 69, 71, 86], 11),             -- "SEGV"
  ([83, 89, 83], 31),                 -- "SYS"
  ([80, 73, 80, 69], 13),             -- "PIPE"
  ([65, 76, 82, 77], 14),             -- "ALRM"
  ([84, 69, 82, 77], 15),             -- "TERM"
  ([85, 82, 71], 23),                 -- "URG"
  ([83, 84, 79, 80], 19),             -- "STOP"
  ([84, 83, 84, 80], 20),             -- "TSTP"
  ([67, 79, 78, 84], 18),             -- "CONT"
  ([67, 72, 76, 68], 17),             -- "CHLD"
  ([67, 76, 68], 17),                 -- "CLD"
  ([84, 84, 73, 78], 21),             -- "TTIN"
  ([84, 84, 79, 85], 22),             -- "TTOU"
  ([73, 79], 29),                     -- "IO"
  ([88, 67, 80, 85], 24),             -- "XCPU"
  ([88, 70, 83, 90], 25),             -- "XFSZ"
  ([86, 84, 65, 76, 82, 77], 26),     -- "VTALRM"
  ([80, 82, 79, 70], 27),             -- "PROF"
  ([87, 73, 78, 67, 72], 28),         -- "WINCH"
  ([85, 83, 82, 49], 10),             -- "USR1"
  ([85, 83, 82, 50], 12),             -- "USR2"
  ([80, 87, 82], 30),                 -- "PWR"
  ([80, 79, 76, 76], 29)]             -- "POLL"

/-- The table-scan loop of signm2signo (first match wins). -/
def lookupSig : List (List Nat × Int) → List Nat → Option Int
  | [], _ => Option.none
  | p :: rest, s => if p.1 = s then some p.2 else lookupSig rest s

/-- signm2signo (timer_thread.c lines 164-187): table lookup, then the
special "RT0" case, then the "RT"-prefixed strtol path (with the source's
`(int)` narrowing of the strtol result), else 0. -/
def signm2signo (nm : List Nat) : Int :=
  match lookupSig siglist nm with
  | some sn => sn
  | Option.none =>
    if nm = [82, 84, 48] then SIGRTMIN
    else if nm.take 2 = [82, 84] then
      let ret := toInt32 (cStrtol0 (nm.drop 2))
      if ret = 0 ∨ SIGRTMAX < SIGRTMIN + ret then 0 else SIGRTMIN + ret
    else 0

/-- Error kinds raised by the binding (E_ARGUMENT_ERROR, E_TYPE_ERROR,
mrb_sys_fail, E_NOTIMP_ERROR respectively). -/
inductive Err
  | argErr
  | typeErr
  | sysErr
  | notImpErr
  deriving DecidableEq

instance {ε α : Type} [DecidableEq ε] [DecidableEq α] : DecidableEq (Except ε α) :=
  fun a b =>
    match a, b with
    | Except.error e1, Except.error e2 =>
      if h : e1 = e2 then isTrue (by rw [h])
      else isFalse (by intro hh; cases hh; exact h rfl)
    | Except.ok v1, Except.ok v2 =>
      if h : v1 = v2 then isTrue (by rw [h])
      else isFalse (by intro hh; cases hh; exact h rfl)
    | Except.error _, Except.ok _ => isFalse (by intro h; cases h)
    | Except.ok _, Except.error _ => isFalse (by intro h; cases h)

/-- An mruby value as discriminated by the source (mrb_type switches and
the mrb_fixnum_p / mrb_float_p / mrb_nil_p tests).  The float payload is
kept as the opaque integer the source obtains by casting it. -/
inductive RVal where
  | nil
  | fixnum (n : Int)
  | float (x : Int)
  | sym (s : List Nat)
  | str (s : List Nat)
  | other
  deriving DecidableEq

/-- The `memcmp("SIG", s, 3)` strip in mrb_to_signo (lines 212-214):
bytes 83 'S', 73 'I', 71 'G'. -/
def stripSIG (s : List Nat) : List Nat :=
  if s.take 3 = [83, 73, 71] then s.drop 3 else s

/-- The string branch of mrb_to_signo (lines 211-219): strip an optional
"SIG" prefix, run signm2signo, and raise an argument error on a zero
result unless the (stripped) name is exactly "EXIT" (bytes 69 88 73 84). -/
def sigResolveStr (s : List Nat) : Except Err Int :=
  let s2 := stripSIG s
  let sig := signm2signo s2
  if sig = 0 ∧ ¬s2 = [69, 88, 73, 84] then Except.error Err.argErr
  else Except.ok sig

/-- mrb_to_signo (lines 189-222).  In the fixnum case the assignment
`int sig = mrb_fixnum(vsig)` narrows the mrb_int to `int`.  The default
case calls mrb_string_type, which raises a type error for values that are
not strings. -/
def mrb_to_signo : RVal → Except Err Int
  | RVal.fixnum n =>
    let sig := toInt32 n
    if sig < 0 ∨ SIGRTMAX ≤ sig then Except.error Err.argErr else Except.ok sig
  | RVal.sym s => sigResolveStr s
  | RVal.str s => sigResolveStr s
  | _ => Except.error Err.typeErr

/-- mrb_rtsignal_get (lines 249-261): `RTSignal.get(idx)`.  The mrb_int
argument is narrowed to `int` in both the range check and the result;
only an upper bound is checked. -/
def mrb_rtsignal_get (idx : Int) : Except Err Int :=
  if SIGRTMAX < SIGRTMIN + toInt32 idx then Except.error Err.argErr
  else Except.ok (SIGRTMIN + toInt32 idx)

/- ---------------------------------------------------------------------
   Arming: mrb_set_itimerspec and mrb_timer_posix_start.
--------------------------------------------------------------------- -/

/-- The two (seconds, nanoseconds) pairs written into `struct itimerspec`. -/
structure Itimerspec where
  value_sec : Int
  value_nsec : Int
  interval_sec : Int
  interval_nsec : Int
  deriving DecidableEq

/-- mrb_set_itimerspec (lines 371-386): validates only the two seconds
arguments; `Option.none` models the -1/EINVAL return.  (The `ts == NULL`
arm is dropped: every call site passes a stack-allocated spec.) -/
def mrb_set_itimerspec (start start_nsec interval interval_nsec : Int) :
    Option Itimerspec :=
  if start < 0 ∨ interval < 0 then Option.none
  else some ⟨start, start_nsec, interval, interval_nsec⟩

/-- Observable outcome of Timer::POSIX#start: either the argument-error
raise (line 409), or a `timer_settime` kernel call carrying the spec that
was built (line 412). -/
inductive StartOutcome where
  | raiseArg
  | settime (ts : Itimerspec)
  deriving DecidableEq

/-- mrb_timer_posix_start (lines 388-417).  `intervalArg = Option.none`
models the optional second argument being absent, in which case the local
`interval` keeps its initialiser -1 (line 391); mrb_int division and
remainder truncate toward zero. -/
def mrb_timer_posix_start (start : Int) (intervalArg : Option Int) : StartOutcome :=
  let interval := intervalArg.getD (-1)
  let s_sec := Int.tdiv start 1000
  let s_nsec := Int.tmod start 1000 * 1000000
  let i_sec := if 0 ≤ interval then Int.tdiv interval 1000 else 0
  let i_nsec := if 0 ≤ interval then Int.tmod interval 1000 * 1000000 else 0
  match mrb_set_itimerspec s_sec s_nsec i_sec i_nsec with
  | Option.none => StartOutcome.raiseArg
  | some ts => StartOutcome.settime ts

/- ---------------------------------------------------------------------
   Construction: mrb_timer_posix_init, with resource-event accounting.
--------------------------------------------------------------------- -/

/-- The sigev_notify mode (SIGEV_SIGNAL / SIGEV_NONE / SIGEV_THREAD).
`memset(&sev, 0, ...)` leaves the SIGEV_SIGNAL value 0 in place, so the
record starts in mode `sigSignal`. -/
inductive Notify
  | sigSignal
  | sigNone
  | sigThread
  deriving DecidableEq

/-- The fields of `struct sigevent` the source assigns. -/
structure SigEv where
  notify : Notify
  signo : Int
  deriving DecidableEq

/-- struct mrb_timer_posix_thread_param (lines 224-227). -/
structure ThreadParam where
  signo : Int
  thread_id : Int
  deriving DecidableEq

/-- mrb_timer_posix_data (lines 229-234); the timer_t slot itself is a
kernel handle and carries no modelled state. -/
structure TimerData where
  timer_signo : Int
  clockid : Int
  thread_param : Option ThreadParam
  deriving DecidableEq

/-- The options hash as the source reads it: the `signal` key is tested
with has_key? (so an absent key is distinct from a nil value), while the
`clock_id` and `thread_id` keys are read with mrb_hash_get (an absent key
is indistinguishable from nil). -/
structure OptHash where
  signal : Option RVal
  clock_id : RVal
  thread_id : RVal
  deriving DecidableEq

/-- Resource events: kernel-timer deletion, heap free and heap
allocation (mrb_free / mrb_malloc), and the timer_create kernel call. -/
inductive Ev
  | timerDelete
  | free
  | alloc
  | createOk
  | createFail
  deriving DecidableEq

/-- mrb_timer_posix_free (lines 236-245): timer_delete, free the timer
slot, free the thread param when present, free the data record. -/
def freeTrace (d : TimerData) : List Ev :=
  [Ev.timerDelete, Ev.free] ++
    (match d.thread_param with
     | some _ => [Ev.free]
     | Option.none => []) ++ [Ev.free]

/-- A successful construction: the stored data record plus the sigevent
that was passed to timer_create (`Option.none` models the NULL pointer of
the `sev.sigev_signo < 0` branch, for which the kernel applies its
default: SIGEV_SIGNAL with SIGALRM). -/
structure InitOk where
  data : TimerData
  sevArg : Option SigEv
  deriving DecidableEq

/-- Lines 336-368 of mrb_timer_posix_init: free any previous data record,
allocate the new data record and timer slot, call timer_create (with NULL
when `sev.sigev_signo < 0`, line 347), and either install the new data or
raise a system error.  `createOk` is the oracle for the kernel call's
success.  The event list starts from `ev0`, the events of the
option-parsing phase (a possible thread-param allocation). -/
def initFinish (prev : Option TimerData) (createOk : Bool) (sev : SigEv)
    (clockid : Int) (param : Option ThreadParam) (ev0 : List Ev) :
    List Ev × Except Err InitOk :=
  let ev1 := ev0 ++
    (match prev with
     | some old => freeTrace old
     | Option.none => []) ++ [Ev.alloc, Ev.alloc]
  if sev.signo < 0 then
    if createOk then
      (ev1 ++ [Ev.createOk], Except.ok ⟨⟨SIGALRM, clockid, param⟩, Option.none⟩)
    else (ev1 ++ [Ev.createFail], Except.error Err.sysErr)
  else
    if createOk then
      (ev1 ++ [Ev.createOk], Except.ok ⟨⟨sev.signo, clockid, param⟩, some sev⟩)
    else (ev1 ++ [Ev.createFail], Except.error Err.sysErr)

/-- Whether mrb_float_p holds of the value. -/
def RVal.isFloat : RVal → Bool
  | RVal.float _ => true
  | _ => false

/-- The signal-key block of mrb_timer_posix_init (lines 294-309): an
absent key leaves the memset/initialised sigevent (SIGEV_SIGNAL value,
signo -1); an explicit nil selects SIGEV_NONE with signo 0; any other
value is resolved through mrb_to_signo and rejected unless strictly
positive. -/
def sigevForSignal (sig : Option RVal) : Except Err SigEv :=
  match sig with
  | Option.none => Except.ok ⟨Notify.sigSignal, -1⟩
  | some RVal.nil => Except.ok ⟨Notify.sigNone, 0⟩
  | some v =>
    match mrb_to_signo v with
    | Except.error e => Except.error e
    | Except.ok sno =>
      if sno ≤ 0 then Except.error Err.argErr
      else Except.ok ⟨Notify.sigSignal, sno⟩

/-- The clock_id key (lines 311-315): a fixnum replaces CLOCK_REALTIME,
narrowed to clockid_t. -/
def clockFor (c : RVal) : Int :=
  match c with
  | RVal.fixnum n => toInt32 n
  | _ => CLOCK_REALTIME

/-- mrb_timer_posix_init (lines 274-369).  `options = Option.none` covers
both the absent optional argument and a non-hash argument (the whole
parsing block is guarded by mrb_hash_p).  A float thread_id allocates the
thread param (its signo defaulting to SIGALRM when the sigevent still
holds the -1 initialiser) and switches the sigevent to SIGEV_THREAD
without touching the sigevent's signo field. -/
def mrb_timer_posix_init (prev : Option TimerData) (options : Option OptHash)
    (createOk : Bool) : List Ev × Except Err InitOk :=
  match options with
  | Option.none => initFinish prev createOk ⟨Notify.sigSignal, -1⟩ CLOCK_REALTIME Option.none []
  | some h =>
    match sigevForSignal h.signal with
    | Except.error e => ([], Except.error e)
    | Except.ok sev1 =>
      match h.thread_id with
      | RVal.float x =>
        initFinish prev createOk ⟨Notify.sigThread, sev1.signo⟩ (clockFor h.clock_id)
          (some ⟨if sev1.signo = -1 then SIGALRM else sev1.signo, x⟩) [Ev.alloc]
      | _ => initFinish prev createOk sev1 (clockFor h.clock_id) Option.none []

/-- mrb_timer_posix_signo (lines 464-473): the stored signal number when
strictly positive, else nil. -/
def mrb_timer_posix_signo (d : TimerData) : Option Int :=
  if 0 < d.timer_signo then some d.timer_signo else Option.none

/-- The notification mode the kernel was configured with: the sigevent's
mode when one was passed, and the kernel default SIGEV_SIGNAL for the
NULL-sigevent branch. -/
def selectedNotify (ok : InitOk) : Notify :=
  match ok.sevArg with
  | some s => s.notify
  | Option.none => Notify.sigSignal

/- ---------------------------------------------------------------------
   Unsupported-platform branch (lines 519-534).
--------------------------------------------------------------------- -/

/-- The entry points named by the claim: construct (initialize), arm
(start), disarm (stop), status (__status_raw), plus the remaining POSIX
methods. -/
inductive PosixMethod
  | construct
  | arm
  | disarm
  | statusRaw
  | runningQ
  | signoQ
  | clockIdQ
  deriving DecidableEq

/-- Result of invoking a method on Timer::POSIX as registered by the
unsupported-platform gem_init. -/
inductive MrbCallResult
  | notImpErr
  | noMethodErr
  | okObj
  deriving DecidableEq

/-- Dispatch on the unsupported-platform class: the gem_init of the
`#else` branch registers only `start` (bound to the E_NOTIMP_ERROR raise,
lines 521-532); `initialize` resolves to the inherited default
Object#initialize (the class is defined under mrb->object_class and no
initialize is registered), and every other method is unresolved
(mruby's method-missing NoMethodError). -/
def shim_dispatch (m : PosixMethod) : MrbCallResult :=
  if m = PosixMethod.arm then MrbCallResult.notImpErr
  else if m = PosixMethod.construct then MrbCallResult.okObj
  else MrbCallResult.noMethodErr

/- ---------------------------------------------------------------------
   Helper lemmas about truncating division by 1000.
--------------------------------------------------------------------- -/

theorem tdiv_thousand_of_neg {s : Int} (h : s < 0) :
    Int.tdiv s 1000 = -((-s) / 1000) := by
  have h1 : Int.tdiv (-(-s)) 1000 = -(Int.tdiv (-s) 1000) := Int.neg_tdiv (-s) 1000
  rw [Int.neg_neg] at h1
  rw [h1, Int.tdiv_eq_ediv (by omega) (by norm_num)]

theorem tmod_thousand_small_neg {s : Int} (h1 : -1000 < s) (h2 : s < 0) :
    Int.tmod s 1000 = s := by
  have hd : Int.tdiv s 1000 = 0 := by
    rw [tdiv_thousand_of_neg h2]
    have : (-s) / 1000 = 0 := by omega
    rw [this]; rfl
  have := Int.tmod_def s 1000
  rw [hd] at this
  simpa using this

/- ---------------------------------------------------------------------
   Round-trip lemmas: strtol parses back the decimal rendering.
--------------------------------------------------------------------- -/

theorem digitsAux_append : ∀ (fuel n : Nat) (acc : List Nat),
    digitsAux fuel n acc = digitsAux fuel n [] ++ acc := by
  intro fuel
  induction fuel with
  | zero => intro n acc; simp [digitsAux]
  | succ f ih =>
    intro n acc
    by_cases h : n < 10
    · simp [digitsAux, h]
    · simp only [digitsAux, if_neg h]
      rw [ih (n / 10) ((48 + n % 10) :: acc), ih (n / 10) [48 + n % 10]]
      simp

theorem digitsAux_digits : ∀ (fuel n b : Nat),
    b ∈ digitsAux fuel n [] → 48 ≤ b ∧ b ≤ 57 := by
  intro fuel
  induction fuel with
  | zero => intro n b hb; simp [digitsAux] at hb
  | succ f ih =>
    intro n b hb
    by_cases h : n < 10
    · simp [digitsAux, h] at hb
      omega
    · simp only [digitsAux, if_neg h] at hb
      rw [digitsAux_append] at hb
      rcases List.mem_append.1 hb with h1 | h2
      · exact ih _ _ h1
      · simp at h2
        omega

theorem parseDecAux_append : ∀ (xs ys : List Nat),
    (∀ b ∈ xs, isDigitB b = true) →
    ∀ v, parseDecAux (xs ++ ys) v = parseDecAux ys (parseDecAux xs v) := by
  intro xs
  induction xs with
  | nil => intro ys h v; simp [parseDecAux]
  | cons a as ih =>
    intro ys h v
    have ha : isDigitB a = true := h a (by simp)
    simp only [List.cons_append, parseDecAux, if_pos ha]
    exact ih ys (fun b hb => h b (by simp [hb])) _

theorem parseDecAux_digitsAux : ∀ (fuel n : Nat), n < fuel → ∀ v,
    parseDecAux (digitsAux fuel n []) v =
      v * 10 ^ (digitsAux fuel n []).length + n := by
  intro fuel
  induction fuel with
  | zero => intro n h; omega
  | succ f ih =>
    intro n hn v
    by_cases h : n < 10
    · have hd : isDigitB (48 + n) = true := by
        simp only [isDigitB, decide_eq_true_eq]
        omega
      simp [digitsAux, h, parseDecAux, hd]
    · have h10 : n / 10 < f := by omega
      have hdig : ∀ b ∈ digitsAux f (n / 10) [], isDigitB b = true := by
        intro b hb
        have := digitsAux_digits f (n / 10) b hb
        simp only [isDigitB, decide_eq_true_eq]
        omega
      have hlast : isDigitB (48 + n % 10) = true := by
        simp only [isDigitB, decide_eq_true_eq]
        omega
      simp only [digitsAux, if_neg h]
      rw [digitsAux_append f (n / 10) [48 + n % 10]]
      rw [parseDecAux_append _ _ hdig v]
      rw [ih (n / 10) h10 v]
      simp only [parseDecAux, if_pos hlast, List.length_append, List.length_cons,
        List.length_nil]
      have heq : (v * 10 ^ (digitsAux f (n / 10) []).length + n / 10) * 10 +
          (48 + n % 10 - 48) =
          v * (10 ^ (digitsAux f (n / 10) []).length * 10) +
            ((n / 10) * 10 + n % 10) := by
        have : 48 + n % 10 - 48 = n % 10 := by omega
        rw [this]; ring
      rw [heq]
      have hnm : n / 10 * 10 + n % 10 = n := by omega
      rw [hnm, ← pow_succ]

theorem digitsAux_head : ∀ (fuel n : Nat), 1 ≤ n → n < fuel →
    ∃ b bs, digitsAux fuel n [] = b :: bs ∧ 49 ≤ b ∧ b ≤ 57 := by
  intro fuel
  induction fuel with
  | zero => intro n h1 h2; omega
  | succ f ih =>
    intro n h1 hn
    by_cases h : n < 10
    · exact ⟨48 + n, [], by simp [digitsAux, h], by omega, by omega⟩
    · obtain ⟨b, bs, he, hb1, hb2⟩ := ih (n / 10) (by omega) (by omega)
      refine ⟨b, bs ++ [48 + n % 10], ?_, hb1, hb2⟩
      simp only [digitsAux, if_neg h]
      rw [digitsAux_append, he]
      simp

theorem natRepr_head (n : Nat) (h : 1 ≤ n) :
    ∃ b bs, natRepr n = b :: bs ∧ 49 ≤ b ∧ b ≤ 57 :=
  digitsAux_head (n + 1) n h (by omega)

theorem parseDec_natRepr (n : Nat) : parseDecAux (natRepr n) 0 = n := by
  have := parseDecAux_digitsAux (n + 1) n (by omega) 0
  simpa [natRepr] using this

theorem cStrtol0_natRepr (n : Nat) (h1 : 1 ≤ n) (h2 : (n : Int) ≤ 2 ^ 63 - 1) :
    cStrtol0 (natRepr n) = n := by
  obtain ⟨b, bs, he, hb1, hb2⟩ := natRepr_head n h1
  have hsp : isSpaceB b = false := by
    simp only [isSpaceB, decide_eq_false_iff_not]
    omega
  have hdrop : List.dropWhile isSpaceB (b :: bs) = b :: bs := by
    simp [List.dropWhile_cons, hsp]
  have hbody : cStrtolBody (b :: bs) = n := by
    simp only [cStrtolBody, if_neg (show ¬b = 48 by omega)]
    rw [← he, parseDec_natRepr]
  rw [he]
  simp only [cStrtol0, hdrop, if_neg (show ¬b = 45 by omega),
    if_neg (show ¬b = 43 by omega), hbody]
  have h0 : (0 : Int) ≤ (n : Int) := Int.natCast_nonneg n
  rw [min_eq_right h2, max_eq_right (by omega)]

/- ---------------------------------------------------------------------
   Behaviour of signm2signo on real-time signal tokens.
--------------------------------------------------------------------- -/

theorem lookupSig_eq_none : ∀ (l : List (List Nat × Int)) (s : List Nat),
    (∀ p ∈ l, p.1 ≠ s) → lookupSig l s = Option.none := by
  intro l
  induction l with
  | nil => intro s _; rfl
  | cons p rest ih =>
    intro s h
    simp only [lookupSig, if_neg (h p (by simp))]
    exact ih s (fun q hq => h q (by simp [hq]))

theorem siglist_no_rt : ∀ p ∈ siglist, p.1.take 2 ≠ [82, 84] := by decide

theorem lookupSig_rt (r : List Nat) :
    lookupSig siglist (82 :: 84 :: r) = Option.none := by
  refine lookupSig_eq_none _ _ (fun p hp hq => ?_)
  exact siglist_no_rt p hp (by rw [hq]; rfl)

theorem stripSIG_rt (r : List Nat) : stripSIG (82 :: 84 :: r) = 82 :: 84 :: r := by
  simp [stripSIG]

theorem stripSIG_rtToken (i : Nat) : stripSIG (rtToken i) = rtToken i := by
  rw [rtToken]
  exact stripSIG_rt _

theorem toInt32_eq_self (x : Int) (h1 : -(2 ^ 31) ≤ x) (h2 : x < 2 ^ 31) :
    toInt32 x = x := by
  unfold toInt32
  have h32 : (2 : Int) ^ 32 = 4294967296 := by norm_num
  have h31 : (2 : Int) ^ 31 = 2147483648 := by norm_num
  rw [h32, h31] at *
  omega

theorem signm2signo_rtToken (i : Nat) (h1 : 1 ≤ i) (h2 : (i : Int) ≤ 2 ^ 63 - 1) :
    signm2signo (rtToken i) =
      if toInt32 i = 0 ∨ SIGRTMAX < SIGRTMIN + toInt32 i then 0
      else SIGRTMIN + toInt32 i := by
  obtain ⟨b, bs, he, hb1, hb2⟩ := natRepr_head i h1
  have hlk : lookupSig siglist (rtToken i) = Option.none := by
    rw [rtToken]
    exact lookupSig_rt _
  have hrt0 : ¬(rtToken i = [82, 84, 48]) := by
    rw [rtToken, he]
    intro hcontra
    simp at hcontra
    omega
  have htake : (rtToken i).take 2 = [82, 84] := rfl
  have hdrop : (rtToken i).drop 2 = natRepr i := rfl
  have hstr : cStrtol0 (natRepr i) = i := cStrtol0_natRepr i h1 h2
  simp only [signm2signo, hlk, if_neg hrt0, htake, hdrop, hstr, if_true]

/- ---------------------------------------------------------------------
   Claim theorems.
--------------------------------------------------------------------- -/

/-- Claim C1, counterexample.  The claim states that `build(-1, 0)` and
`build(0, -1)` both fail with a validation error and that no
`timer_settime` kernel call is attempted.  In fact neither raises:
arming with start_ms = -1 passes the validation (the seconds component
-1 tdiv 1000 is 0) and reaches the kernel call with a negative nanosecond
field, and arming with interval_ms = -1 is treated exactly like an absent
interval and reaches the kernel call with the all-zero interval. -/
theorem start_negative_ms_counterexample :
    mrb_timer_posix_start (-1) (some 0) =
      StartOutcome.settime ⟨0, -1000000, 0, 0⟩ ∧
    mrb_timer_posix_start 0 (some (-1)) =
      StartOutcome.settime ⟨0, 0, 0, 0⟩ := by
  constructor <;> decide

/-- Claim C1, amended.  Arming raises the validation error (before any
kernel call) exactly when the millisecond value reaches -1000, because
the check in mrb_set_itimerspec sees only the truncated seconds: (a) for
start_ms ≤ -1000 the validation error is raised and no kernel call is
made; (b) for -999 ≤ start_ms ≤ -1 the validation passes and the kernel
call is attempted with a negative nanosecond field; (c) a negative
interval_ms is treated as an absent interval (zero recurrence), not as an
error. -/
theorem start_negative_input_handling :
    (∀ s iv : Int, s ≤ -1000 →
       mrb_timer_posix_start s (some iv) = StartOutcome.raiseArg) ∧
    (∀ s : Int, -1000 < s → s < 0 →
       mrb_timer_posix_start s (some 0) =
         StartOutcome.settime ⟨0, s * 1000000, 0, 0⟩ ∧ s * 1000000 < 0) ∧
    (∀ s iv : Int, 0 ≤ s → iv < 0 →
       mrb_timer_posix_start s (some iv) = mrb_timer_posix_start s Option.none) := by
  refine ⟨?_, ?_, ?_⟩
  · intro s iv hs
    have hneg : Int.tdiv s 1000 < 0 := by
      rw [tdiv_thousand_of_neg (by omega)]; omega
    simp only [mrb_timer_posix_start, Option.getD_some, mrb_set_itimerspec,
      if_pos (Or.inl hneg)]
  · intro s h1 h2
    have hd : Int.tdiv s 1000 = 0 := by
      rw [tdiv_thousand_of_neg h2]
      have : (-s) / 1000 = 0 := by omega
      rw [this]; rfl
    have hm : Int.tmod s 1000 = s := tmod_thousand_small_neg h1 h2
    refine ⟨?_, by omega⟩
    simp only [mrb_timer_posix_start, Option.getD_some, mrb_set_itimerspec, hd, hm]
    norm_num
  · intro s iv hs hiv
    have hneg : ¬(0 ≤ iv) := by omega
    have hneg1 : ¬(0 ≤ (-1 : Int)) := by norm_num
    simp only [mrb_timer_posix_start, Option.getD_some, Option.getD_none,
      if_neg hneg, if_neg hneg1]

/-- Claim C1, witness for the amended theorem at start_ms = -1000 and
start_ms = -1. -/
theorem start_negative_input_handling_witness :
    mrb_timer_posix_start (-1000) (some 0) = StartOutcome.raiseArg ∧
    mrb_timer_posix_start (-1) (some 0) =
      StartOutcome.settime ⟨0, (-1) * 1000000, 0, 0⟩ := by
  refine ⟨start_negative_input_handling.1 (-1000) 0 (by norm_num), ?_⟩
  exact (start_negative_input_handling.2.1 (-1) (by norm_num) (by norm_num)).1

/-- Claim C4: for non-negative millisecond inputs, arming decomposes each
value as seconds = ms div 1000 and nanoseconds = (ms mod 1000) * 1000000;
an absent interval yields a zero recurrence interval; and build(1500, 250)
yields initial (1 s, 500000000 ns) and interval (0 s, 250000000 ns). -/
theorem start_ms_decomposition :
    (∀ s iv : Int, 0 ≤ s → 0 ≤ iv →
       mrb_timer_posix_start s (some iv) =
         StartOutcome.settime
           ⟨s / 1000, s % 1000 * 1000000, iv / 1000, iv % 1000 * 1000000⟩) ∧
    (∀ s : Int, 0 ≤ s →
       mrb_timer_posix_start s Option.none =
         StartOutcome.settime ⟨s / 1000, s % 1000 * 1000000, 0, 0⟩) ∧
    mrb_timer_posix_start 1500 (some 250) =
      StartOutcome.settime ⟨1, 500000000, 0, 250000000⟩ := by
  have h1000 : (0 : Int) ≤ 1000 := by norm_num
  refine ⟨?_, ?_, by decide⟩
  · intro s iv hs hiv
    have hsd : Int.tdiv s 1000 = s / 1000 := Int.tdiv_eq_ediv hs h1000
    have hsm : Int.tmod s 1000 = s % 1000 := Int.tmod_eq_emod hs h1000
    have hid : Int.tdiv iv 1000 = iv / 1000 := Int.tdiv_eq_ediv hiv h1000
    have him : Int.tmod iv 1000 = iv % 1000 := Int.tmod_eq_emod hiv h1000
    have hok : ¬(s / 1000 < 0 ∨ iv / 1000 < 0) := by
      push_neg
      exact ⟨Int.ediv_nonneg hs h1000, Int.ediv_nonneg hiv h1000⟩
    simp only [mrb_timer_posix_start, Option.getD_some, mrb_set_itimerspec,
      if_pos hiv, hsd, hsm, hid, him, if_neg hok]
  · intro s hs
    have hsd : Int.tdiv s 1000 = s / 1000 := Int.tdiv_eq_ediv hs h1000
    have hsm : Int.tmod s 1000 = s % 1000 := Int.tmod_eq_emod hs h1000
    have hneg1 : ¬(0 ≤ (-1 : Int)) := by norm_num
    have hok : ¬(s / 1000 < 0 ∨ (0 : Int) < 0) := by
      push_neg
      exact ⟨Int.ediv_nonneg hs h1000, le_refl 0⟩
    simp only [mrb_timer_posix_start, Option.getD_none, mrb_set_itimerspec,
      if_neg hneg1, hsd, hsm, if_neg hok]

/-- Claim C4, witness at build(1500, 250) through the universally
quantified part. -/
theorem start_ms_decomposition_witness :
    mrb_timer_posix_start 1500 (some 250) =
      StartOutcome.settime
        ⟨1500 / 1000, 1500 % 1000 * 1000000, 250 / 1000, 250 % 1000 * 1000000⟩ :=
  start_ms_decomposition.1 1500 250 (by norm_num) (by norm_num)

/-- Claim C2.  Re-construction on a handle that already owns a timer does
release the old kernel timer and its allocations before the new kernel
timer is created (success trace), but when timer_create fails the
function raises after the data record and the timer slot have been
allocated and detached from the handle: the failure trace ends in
[alloc, alloc, createFail] with no free of either block, so two heap
blocks leak — contradicting the no-partial-success half of the claim. -/
theorem init_create_failure_leak :
    mrb_timer_posix_init (some ⟨14, 0, Option.none⟩) Option.none false =
      ([Ev.timerDelete, Ev.free, Ev.free, Ev.alloc, Ev.alloc, Ev.createFail],
       Except.error Err.sysErr) ∧
    mrb_timer_posix_init (some ⟨14, 0, Option.none⟩) Option.none true =
      ([Ev.timerDelete, Ev.free, Ev.free, Ev.alloc, Ev.alloc, Ev.createOk],
       Except.ok ⟨⟨14, 0, Option.none⟩, Option.none⟩) := by
  constructor <;> decide

/-- Claim C3, counterexample.  On the unsupported-platform branch the
disarm entry point does not report the unsupported-capability error (it
is simply not defined, giving a NoMethodError), and construction
succeeds through the inherited default initializer instead of
reporting any error. -/
theorem shim_not_symmetric_counterexample :
    shim_dispatch PosixMethod.disarm = MrbCallResult.noMethodErr ∧
    MrbCallResult.noMethodErr ≠ MrbCallResult.notImpErr ∧
    shim_dispatch PosixMethod.construct = MrbCallResult.okObj := by
  refine ⟨by decide, by decide, by decide⟩

/-- Claim C3, amended.  On platforms without interval-timer support only
the arm entry point (start) is registered and reports the
capability-not-implemented error; construction falls through to the
inherited default initializer and succeeds, and disarm, status,
running?, signo and clock_id are undefined methods (method-missing
error, not the capability error).  No entry point touches kernel
state. -/
theorem shim_dispatch_spec :
    shim_dispatch PosixMethod.arm = MrbCallResult.notImpErr ∧
    shim_dispatch PosixMethod.construct = MrbCallResult.okObj ∧
    shim_dispatch PosixMethod.disarm = MrbCallResult.noMethodErr ∧
    shim_dispatch PosixMethod.statusRaw = MrbCallResult.noMethodErr ∧
    shim_dispatch PosixMethod.runningQ = MrbCallResult.noMethodErr ∧
    shim_dispatch PosixMethod.signoQ = MrbCallResult.noMethodErr ∧
    shim_dispatch PosixMethod.clockIdQ = MrbCallResult.noMethodErr := by
  refine ⟨by decide, by decide, by decide, by decide, by decide, by decide, by decide⟩

/-- Claim C6: for every name in the signal table, resolving the name with
a "SIG" prefix (bytes 83 73 71) gives the same result as resolving the
bare name. -/
theorem resolve_sig_prefix_optional :
    ∀ p ∈ siglist,
      mrb_to_signo (RVal.str p.1) =
        mrb_to_signo (RVal.str ([83, 73, 71] ++ p.1)) := by
  decide

/-- Claim C6, witness at the table entry for USR1. -/
theorem resolve_sig_prefix_optional_witness :
    mrb_to_signo (RVal.str [85, 83, 82, 49]) =
      mrb_to_signo (RVal.str ([83, 73, 71] ++ [85, 83, 82, 49])) :=
  resolve_sig_prefix_optional ([85, 83, 82, 49], 10) (by decide)

/-- Claim C5, counterexample.  The claim asserts that for every offset i
with SIGRTMIN + i above SIGRTMAX both the "RT"+i token path and
RTSignal.get(i) fail with an argument error.  At i = 2^32 + 5 the 32-bit
narrowing of strtol's result (token path) and of the mrb_int index
(RTSignal.get) wraps to 5, so both calls succeed and return 39 instead of
failing. -/
theorem rt_wrap_counterexample :
    SIGRTMAX < SIGRTMIN + ((4294967301 : Nat) : Int) ∧
    mrb_to_signo (RVal.str (rtToken 4294967301)) = Except.ok 39 ∧
    mrb_rtsignal_get ((4294967301 : Nat) : Int) = Except.ok 39 := by
  refine ⟨by norm_num [SIGRTMIN, SIGRTMAX], ?_, by decide⟩
  have h32 : toInt32 ((4294967301 : Nat) : Int) = 5 := by decide
  have hsgn := signm2signo_rtToken 4294967301 (by norm_num) (by norm_num)
  rw [h32] at hsgn
  norm_num [SIGRTMIN, SIGRTMAX] at hsgn
  have hstrip := stripSIG_rtToken 4294967301
  have hexit : ¬(rtToken 4294967301 = [69, 88, 73, 84]) := by
    rw [rtToken]
    intro hcontra
    simp at hcontra
  simp only [mrb_to_signo, sigResolveStr, hstrip, hsgn]
  rw [if_neg (by norm_num)]

/-- Claim C5, amended.  For every non-negative offset i with
SIGRTMIN + i ≤ SIGRTMAX, resolving the token "RT"+i yields the same
signal number as RTSignal.get(i), namely SIGRTMIN + i, and "RT0" resolves
to SIGRTMIN exactly; for offsets whose sum exceeds SIGRTMAX the exceed
side must be restricted to sums representable in the C int type
(SIGRTMIN + i ≤ 2^31 - 1): there both paths fail with the same argument
error.  (Beyond the int range the 32-bit narrowing makes both paths wrap
instead of failing, see the counterexample.) -/
theorem rt_token_vs_rt_signal :
    (∀ i : Nat, SIGRTMIN + (i : Int) ≤ SIGRTMAX →
       mrb_to_signo (RVal.str (rtToken i)) = Except.ok (SIGRTMIN + (i : Int)) ∧
       mrb_rtsignal_get (i : Int) = Except.ok (SIGRTMIN + (i : Int))) ∧
    mrb_to_signo (RVal.str (rtToken 0)) = Except.ok SIGRTMIN ∧
    (∀ i : Nat, SIGRTMAX < SIGRTMIN + (i : Int) →
       SIGRTMIN + (i : Int) ≤ 2 ^ 31 - 1 →
       mrb_to_signo (RVal.str (rtToken i)) = Except.error Err.argErr ∧
       mrb_rtsignal_get (i : Int) = Except.error Err.argErr) := by
  refine ⟨?_, by decide, ?_⟩
  · intro i hi
    have hb : i < 31 := by
      simp only [SIGRTMIN, SIGRTMAX] at hi
      omega
    have H : ∀ j : Nat, j < 31 →
        mrb_to_signo (RVal.str (rtToken j)) = Except.ok (SIGRTMIN + (j : Int)) ∧
        mrb_rtsignal_get (j : Int) = Except.ok (SIGRTMIN + (j : Int)) := by decide
    exact H i hb
  · intro i h1 h2
    have hi1 : 1 ≤ i := by
      simp only [SIGRTMIN, SIGRTMAX] at h1
      omega
    have hiBound : (i : Int) < 2 ^ 31 := by
      simp only [SIGRTMIN] at h2
      omega
    have hi63 : (i : Int) ≤ 2 ^ 63 - 1 := by
      have : (2 : Int) ^ 31 ≤ 2 ^ 63 - 1 := by norm_num
      omega
    have h32 : toInt32 (i : Int) = (i : Int) :=
      toInt32_eq_self _ (le_trans (by norm_num) (Int.natCast_nonneg i)) hiBound
    constructor
    · have hsgn := signm2signo_rtToken i hi1 hi63
      rw [h32, if_pos (Or.inr h1)] at hsgn
      have hstrip := stripSIG_rtToken i
      have hexit : ¬(rtToken i = [69, 88, 73, 84]) := by
        rw [rtToken]
        intro hcontra
        simp at hcontra
      simp only [mrb_to_signo, sigResolveStr, hstrip, hsgn]
      rw [if_pos ⟨trivial, hexit⟩]
    · simp only [mrb_rtsignal_get, h32, if_pos h1]

/-- Claim C5, witness for the amended theorem at offset 5: both paths
return SIGRTMIN + 5 = 39. -/
theorem rt_token_vs_rt_signal_witness :
    mrb_to_signo (RVal.str (rtToken 5)) = Except.ok (SIGRTMIN + ((5 : Nat) : Int)) ∧
    mrb_rtsignal_get ((5 : Nat) : Int) = Except.ok (SIGRTMIN + ((5 : Nat) : Int)) :=
  rt_token_vs_rt_signal.1 5 (by decide)

/-- Claim C10, counterexample.  The claim asserts that every negative
index whose sum stays at or below SIGRTMAX yields SIGRTMIN + index (a
value below the real-time base) without error.  At index -(2^32) + 5 the
`(int)` narrowing of the mrb_int argument wraps to 5, and RTSignal.get
returns 39, which is neither SIGRTMIN + index nor below the base. -/
theorem rtsignal_wrap_counterexample :
    (-4294967291 : Int) < 0 ∧
    SIGRTMIN + (-4294967291 : Int) ≤ SIGRTMAX ∧
    mrb_rtsignal_get (-4294967291) = Except.ok 39 ∧
    ¬((39 : Int) = SIGRTMIN + (-4294967291 : Int)) := by
  refine ⟨by norm_num, by norm_num [SIGRTMIN, SIGRTMAX], by decide,
    by norm_num [SIGRTMIN]⟩

/-- Claim C10, amended.  RTSignal.get performs no lower-bound check: for
every negative index representable in the C int type, it returns
SIGRTMIN + index — a value below the real-time base — without error; and
within the int range an argument error is raised exactly when
SIGRTMIN + index exceeds SIGRTMAX.  (For indices below -(2^31) the
narrowing conversion wraps first, see the counterexample.) -/
theorem rtsignal_no_lower_bound :
    (∀ idx : Int, -(2 ^ 31) ≤ idx → idx < 0 → SIGRTMIN + idx ≤ SIGRTMAX →
       mrb_rtsignal_get idx = Except.ok (SIGRTMIN + idx) ∧
       SIGRTMIN + idx < SIGRTMIN) ∧
    (∀ idx : Int, -(2 ^ 31) ≤ idx → idx < 2 ^ 31 →
       (mrb_rtsignal_get idx = Except.error Err.argErr ↔
         SIGRTMAX < SIGRTMIN + idx)) := by
  constructor
  · intro idx h1 h2 h3
    have h32 : toInt32 idx = idx := toInt32_eq_self idx h1 (by omega)
    refine ⟨?_, by simp only [SIGRTMIN]; omega⟩
    simp only [mrb_rtsignal_get, h32, if_neg (not_lt.2 h3)]
  · intro idx h1 h2
    have h32 : toInt32 idx = idx := toInt32_eq_self idx h1 h2
    by_cases hc : SIGRTMAX < SIGRTMIN + idx
    · simp [mrb_rtsignal_get, h32, hc]
    · simp [mrb_rtsignal_get, h32, hc]

/-- Claim C10, witness at index -1: RTSignal.get(-1) = 33 < SIGRTMIN. -/
theorem rtsignal_no_lower_bound_witness :
    mrb_rtsignal_get (-1) = Except.ok (SIGRTMIN + (-1 : Int)) ∧
    SIGRTMIN + (-1 : Int) < SIGRTMIN :=
  rtsignal_no_lower_bound.1 (-1) (by norm_num) (by norm_num)
    (by norm_num [SIGRTMIN, SIGRTMAX])

/-- Claim C7: resolving "EXIT" (bytes 69 88 73 84) returns the sentinel 0
without error, and resolving "NOSUCHSIGNAL" fails with the argument
error. -/
theorem resolve_exit_and_unknown :
    mrb_to_signo (RVal.str [69, 88, 73, 84]) = Except.ok 0 ∧
    mrb_to_signo (RVal.str [78, 79, 83, 85, 67, 72, 83, 73, 71, 78, 65, 76]) =
      Except.error Err.argErr := by
  constructor <;> decide

theorem sigevForSignal_nonnil_err (v : RVal) (hv : ¬v = RVal.nil) (e : Err)
    (hres : mrb_to_signo v = Except.error e) :
    sigevForSignal (some v) = Except.error e := by
  cases v <;> first
    | exact absurd rfl hv
    | simp [sigevForSignal, hres]

theorem sigevForSignal_nonnil_ok (v : RVal) (hv : ¬v = RVal.nil) (sno : Int)
    (hres : mrb_to_signo v = Except.ok sno) :
    sigevForSignal (some v) =
      (if sno ≤ 0 then Except.error Err.argErr
       else Except.ok ⟨Notify.sigSignal, sno⟩) := by
  cases v <;> first
    | exact absurd rfl hv
    | simp [sigevForSignal, hres]

theorem initFinish_true_ok (prev : Option TimerData) (sev : SigEv) (clockid : Int)
    (param : Option ThreadParam) (ev0 : List Ev) :
    (initFinish prev true sev clockid param ev0).2 =
      Except.ok ⟨⟨if sev.signo < 0 then SIGALRM else sev.signo, clockid, param⟩,
                 if sev.signo < 0 then Option.none else some sev⟩ := by
  by_cases h : sev.signo < 0 <;> simp [initFinish, h]

theorem initFinish_false_err (prev : Option TimerData) (sev : SigEv) (clockid : Int)
    (param : Option ThreadParam) (ev0 : List Ev) :
    (initFinish prev false sev clockid param ev0).2 = Except.error Err.sysErr := by
  by_cases h : sev.signo < 0 <;> simp [initFinish, h]

/-- Claim C8, counterexample.  The claim states signo() is none exactly
when the no-notification mode was selected.  Constructing with an
explicit nil signal together with a float thread_id selects the
thread-delivery mode (SIGEV_THREAD), yet signo() still reports none
(the stored signal number is the 0 written for the nil signal), so
"signo() = none" does not coincide with "no-notification mode". -/
theorem signo_none_thread_counterexample :
    (mrb_timer_posix_init Option.none
        (some ⟨some RVal.nil, RVal.nil, RVal.float 7⟩) true).2 =
      Except.ok ⟨⟨0, 0, some ⟨0, 7⟩⟩, some ⟨Notify.sigThread, 0⟩⟩ ∧
    mrb_timer_posix_signo ⟨0, 0, some ⟨0, 7⟩⟩ = Option.none ∧
    selectedNotify ⟨⟨0, 0, some ⟨0, 7⟩⟩, some ⟨Notify.sigThread, 0⟩⟩ =
      Notify.sigThread ∧
    Notify.sigThread ≠ Notify.sigNone := by
  refine ⟨by decide, by decide, by decide, by decide⟩

/-- Claim C8, amended.  signo() returns none exactly when the caller
explicitly supplied the nil signal sentinel (which selects the
no-notification mode unless a float thread_id additionally switches
construction to thread delivery); in every other successful construction
signo() returns the positive stored signal.  In particular a handle
constructed with signal nil reports signo() = none, and one constructed
with signal "USR1" reports signo() = 10, the value "USR1" resolves
to. -/
theorem signo_reflects_construction :
    (∀ h : OptHash, ∀ ok : InitOk,
       (mrb_timer_posix_init Option.none (some h) true).2 = Except.ok ok →
       (mrb_timer_posix_signo ok.data = Option.none ↔ h.signal = some RVal.nil)) ∧
    (mrb_timer_posix_init Option.none
        (some ⟨some RVal.nil, RVal.nil, RVal.nil⟩) true).2 =
      Except.ok ⟨⟨0, 0, Option.none⟩, some ⟨Notify.sigNone, 0⟩⟩ ∧
    mrb_timer_posix_signo ⟨0, 0, Option.none⟩ = Option.none ∧
    (mrb_timer_posix_init Option.none
        (some ⟨some (RVal.str [85, 83, 82, 49]), RVal.nil, RVal.nil⟩) true).2 =
      Except.ok ⟨⟨10, 0, Option.none⟩, some ⟨Notify.sigSignal, 10⟩⟩ ∧
    mrb_to_signo (RVal.str [85, 83, 82, 49]) = Except.ok 10 ∧
    mrb_timer_posix_signo ⟨10, 0, Option.none⟩ = some 10 := by
  refine ⟨?_, by decide, by decide, by decide, by decide, by decide⟩
  intro h ok hok
  obtain ⟨hsig, hclock, hthread⟩ := h
  simp only [mrb_timer_posix_init] at hok
  rcases hsig with _ | v
  · rw [show sigevForSignal Option.none = Except.ok ⟨Notify.sigSignal, -1⟩
      from rfl] at hok
    cases hthread <;>
      (rw [initFinish_true_ok] at hok
       simp only [Except.ok.injEq] at hok
       subst hok
       simp [mrb_timer_posix_signo, SIGALRM])
  · by_cases hnil : v = RVal.nil
    · subst hnil
      rw [show sigevForSignal (some RVal.nil) = Except.ok ⟨Notify.sigNone, 0⟩
        from rfl] at hok
      cases hthread <;>
        (rw [initFinish_true_ok] at hok
         simp only [Except.ok.injEq] at hok
         subst hok
         simp [mrb_timer_posix_signo])
    · rcases hres : mrb_to_signo v with e | sno
      · rw [sigevForSignal_nonnil_err v hnil e hres] at hok
        simp at hok
      · rw [sigevForSignal_nonnil_ok v hnil sno hres] at hok
        by_cases hsno : sno ≤ 0
        · rw [if_pos hsno] at hok
          simp at hok
        · rw [if_neg hsno] at hok
          have h1 : ¬sno < 0 := by omega
          have h2 : 0 < sno := by omega
          cases hthread <;>
            (rw [initFinish_true_ok] at hok
             simp only [Except.ok.injEq] at hok
             subst hok
             simp [mrb_timer_posix_signo, h1, h2, hnil])

/-- Claim C8, witness for the amended theorem at the nil-signal
example. -/
theorem signo_reflects_construction_witness :
    mrb_timer_posix_signo
        ((⟨⟨0, 0, Option.none⟩, some ⟨Notify.sigNone, 0⟩⟩ : InitOk).data) =
        Option.none ↔
      (⟨some RVal.nil, RVal.nil, RVal.nil⟩ : OptHash).signal = some RVal.nil :=
  signo_reflects_construction.1 ⟨some RVal.nil, RVal.nil, RVal.nil⟩
    ⟨⟨0, 0, Option.none⟩, some ⟨Notify.sigNone, 0⟩⟩ (by decide)

/-- Claim C9: in construction, thread delivery is keyed purely on the
thread_id option being a float.  Any non-float thread_id (including a
fixnum) is silently ignored: no notification context is allocated and the
handle is built in the default configuration (NULL sigevent, i.e. kernel
default signal-to-process with SIGALRM); a float thread_id allocates the
context; and a successful construction whose kernel configuration is
SIGEV_THREAD can only arise from a float thread_id. -/
theorem thread_id_requires_float :
    (∀ v : RVal, v.isFloat = false →
       mrb_timer_posix_init Option.none (some ⟨Option.none, RVal.nil, v⟩) true =
         ([Ev.alloc, Ev.alloc, Ev.createOk],
          Except.ok ⟨⟨SIGALRM, CLOCK_REALTIME, Option.none⟩, Option.none⟩)) ∧
    (∀ x : Int,
       mrb_timer_posix_init Option.none
           (some ⟨Option.none, RVal.nil, RVal.float x⟩) true =
         ([Ev.alloc, Ev.alloc, Ev.alloc, Ev.createOk],
          Except.ok ⟨⟨SIGALRM, CLOCK_REALTIME, some ⟨SIGALRM, x⟩⟩, Option.none⟩)) ∧
    (∀ (hopt : OptHash) (prev : Option TimerData) (ck : Bool) (ok : InitOk),
       (mrb_timer_posix_init prev (some hopt) ck).2 = Except.ok ok →
       selectedNotify ok = Notify.sigThread → hopt.thread_id.isFloat = true) := by
  refine ⟨?_, ?_, ?_⟩
  · intro v hv
    cases v <;> first
      | rfl
      | simp [RVal.isFloat] at hv
  · intro x
    rfl
  · intro hopt prev ck ok hok hsel
    obtain ⟨hsig, hclock, hthread⟩ := hopt
    cases ck
    · -- createOk = false: construction cannot succeed
      simp only [mrb_timer_posix_init] at hok
      rcases hsig with _ | v
      · rw [show sigevForSignal Option.none = Except.ok ⟨Notify.sigSignal, -1⟩
          from rfl] at hok
        cases hthread <;>
          (rw [initFinish_false_err] at hok; simp at hok)
      · by_cases hnil : v = RVal.nil
        · subst hnil
          rw [show sigevForSignal (some RVal.nil) = Except.ok ⟨Notify.sigNone, 0⟩
            from rfl] at hok
          cases hthread <;>
            (rw [initFinish_false_err] at hok; simp at hok)
        · rcases hres : mrb_to_signo v with e | sno
          · rw [sigevForSignal_nonnil_err v hnil e hres] at hok
            simp at hok
          · rw [sigevForSignal_nonnil_ok v hnil sno hres] at hok
            by_cases hsno : sno ≤ 0
            · rw [if_pos hsno] at hok
              simp at hok
            · rw [if_neg hsno] at hok
              cases hthread <;>
                (rw [initFinish_false_err] at hok; simp at hok)
    · -- createOk = true
      simp only [mrb_timer_posix_init] at hok
      rcases hsig with _ | v
      · rw [show sigevForSignal Option.none = Except.ok ⟨Notify.sigSignal, -1⟩
          from rfl] at hok
        cases hthread <;>
          (rw [initFinish_true_ok] at hok
           simp only [Except.ok.injEq] at hok
           subst hok) <;>
          first
          | rfl
          | simp [selectedNotify] at hsel
      · by_cases hnil : v = RVal.nil
        · subst hnil
          rw [show sigevForSignal (some RVal.nil) = Except.ok ⟨Notify.sigNone, 0⟩
            from rfl] at hok
          cases hthread <;>
            (rw [initFinish_true_ok] at hok
             simp only [Except.ok.injEq] at hok
             subst hok) <;>
            first
            | rfl
            | simp [selectedNotify] at hsel
        · rcases hres : mrb_to_signo v with e | sno
          · rw [sigevForSignal_nonnil_err v hnil e hres] at hok
            simp at hok
          · rw [sigevForSignal_nonnil_ok v hnil sno hres] at hok
            by_cases hsno : sno ≤ 0
            · rw [if_pos hsno] at hok
              simp at hok
            · rw [if_neg hsno] at hok
              have h1 : ¬sno < 0 := by omega
              cases hthread <;>
                (rw [initFinish_true_ok] at hok
                 simp only [Except.ok.injEq] at hok
                 subst hok) <;>
                first
                | rfl
                | simp [selectedNotify, h1] at hsel

/-- Claim C9, witness at a fixnum thread_id. -/
theorem thread_id_requires_float_witness :
    mrb_timer_posix_init Option.none
        (some ⟨Option.none, RVal.nil, RVal.fixnum 3⟩) true =
      ([Ev.alloc, Ev.alloc, Ev.createOk],
       Except.ok ⟨⟨SIGALRM, CLOCK_REALTIME, Option.none⟩, Option.none⟩) :=
  thread_id_requires_float.1 (RVal.fixnum 3) (by decide)

end TimerThread
